import Mathlib

/-!
Verification of the mjpeg-proxy repository (Go).

The chunk-parser definitions below are a shallow embedding of the functions
`chunker`, `readChunkHeader` and `readChunkData` of `src/mjpeg-proxy.go`.
The byte stream is modelled as a `List Char` (the Go code treats the bytes
as an ASCII string for all header processing).  Go errors are the `err`
constructor, Go runtime panics the `panicMsg` constructor of `Outcome`.
-/

/-- The distinct Go error values the chunker code can produce:
`io.EOF` style read failures, `strconv.Atoi` failures, the
"Content-Length chunk header not found" error of `readChunkHeader`
(mjpeg-proxy.go line 142) and the "received final chunk" sentinel of
`chunker` (mjpeg-proxy.go line 86). -/
inductive GoErr where
  | eof
  | atoiErr
  | noContentLength
  | finalChunk
deriving DecidableEq, Repr

/-- Result of a piece of Go code: a value, a returned error, or a runtime
panic carrying the runtime error message. -/
inductive Outcome (α : Type) where
  | ok : α → Outcome α
  | err : GoErr → Outcome α
  | panicMsg : String → Outcome α
deriving DecidableEq, Repr

/-- Message of the Go runtime panic raised by an out-of-range slice index
(`parts[1]` in readChunkHeader, mjpeg-proxy.go line 133). -/
def oorMsg : String := "runtime error: index out of range"

/-- Message of the Go runtime panic raised by `make([]byte, size)` with a
negative size (readChunkData, mjpeg-proxy.go line 150). -/
def msliceMsg : String := "runtime error: makeslice: len out of range"

/-- `bufio.Reader.ReadSlice('\n')` (mjpeg-proxy.go lines 105, 117): returns
the bytes up to and including the first newline together with the remaining
stream, or fails (io.EOF) when the stream ends before a newline. -/
def splitLine : List Char → Option (List Char × List Char)
  | [] => none
  | c :: cs =>
    if c = '\n' then some ([c], cs)
    else
      match splitLine cs with
      | none => none
      | some (l, r) => some (c :: l, r)

/-- `strings.TrimRight(s, "\r\n")` (mjpeg-proxy.go line 124): removes every
trailing carriage-return or newline character. -/
def trimRight (s : List Char) : List Char :=
  (s.reverse.dropWhile (fun c => c == '\r' || c == '\n')).reverse

/-- `strings.SplitN(s, ": ", 2)` (mjpeg-proxy.go line 130), presented as an
option: `some (before, after)` splits at the first occurrence of the
two-character separator ": "; `none` means the separator was absent, in
which case `SplitN` returns the one-element slice `[s]`. -/
def splitColonSpace : List Char → Option (List Char × List Char)
  | ':' :: ' ' :: rest => some ([], rest)
  | c :: rest =>
    match splitColonSpace rest with
    | none => none
    | some (a, b) => some (c :: a, b)
  | [] => none

/-- `strings.EqualFold` (mjpeg-proxy.go line 131) restricted to the ASCII
inputs the header grammar uses: case-insensitive equality. -/
def eqFold (a b : List Char) : Bool :=
  a.map Char.toLower == b.map Char.toLower

/-- The header key the chunker looks for. -/
def contentLengthKey : List Char := "Content-Length".data

/-- One decimal-digit accumulation step loop of `strconv.Atoi`. -/
def atoiDigits : List Char → Nat → Option Nat
  | [], acc => some acc
  | c :: cs, acc =>
    if '0' ≤ c ∧ c ≤ '9' then atoiDigits cs (acc * 10 + (c.toNat - '0'.toNat))
    else none

/-- Digit-string part of `strconv.Atoi`: at least one digit, all digits,
64-bit signed range check. -/
def atoiCore (ds : List Char) (neg : Bool) : Option Int :=
  match ds with
  | [] => none
  | _ :: _ =>
    match atoiDigits ds 0 with
    | none => none
    | some v =>
      let val : Int := if neg then -(v : Int) else (v : Int)
      if val < -(2 ^ 63) ∨ (2 ^ 63 : Int) - 1 < val then none else some val

/-- `strconv.Atoi` (mjpeg-proxy.go line 133): optional sign, decimal digits,
errors on empty input, stray characters or 64-bit overflow. -/
def atoi : List Char → Option Int
  | '+' :: rest => atoiCore rest false
  | '-' :: rest => atoiCore rest true
  | s => atoiCore s false

/-- Result type of `readChunkHeader`: accumulated header bytes, the parsed
Content-Length, and the remaining stream. -/
abbrev HeaderOut := Outcome ((List Char × Int) × List Char)

/-- The header-reading loop of `readChunkHeader` (mjpeg-proxy.go lines
116-139), with a fuel argument.  Each iteration consumes one full line
(at least one character), so fuel `input.length + 1` always suffices; the
fuel-exhaustion branch is unreachable at that fuel.  `head` carries the raw
bytes accumulated so far, `size` the last Content-Length value seen
(initially -1).  A line that is exactly the Content-Length key with no
": " separator makes the Go code index `parts[1]` out of range: a panic. -/
def headerLoopF : Nat → List Char → List Char → Int → HeaderOut
  | 0, _, _, _ => .err .eof
  | fuel + 1, input, head, size =>
    match splitLine input with
    | none => .err .eof
    | some (line, rest) =>
      let head2 := head ++ line
      let lineStr := trimRight line
      if lineStr = [] then .ok ((head2, size), rest)
      else
        match splitColonSpace lineStr with
        | some (key, value) =>
          if eqFold key contentLengthKey then
            match atoi value with
            | none => .err .atoiErr
            | some n => headerLoopF fuel rest head2 n
          else headerLoopF fuel rest head2 size
        | none =>
          if eqFold lineStr contentLengthKey then .panicMsg oorMsg
          else headerLoopF fuel rest head2 size

/-- The header loop at its always-sufficient fuel. -/
def headerLoop (input head : List Char) (size : Int) : HeaderOut :=
  headerLoopF (input.length + 1) input head size

/-- `readChunkHeader` (mjpeg-proxy.go lines 98-147): reads the boundary line
unchecked, runs the header loop, and reports "Content-Length chunk header
not found" when the blank line was reached with `size` still -1. -/
def readChunkHeader (input : List Char) : HeaderOut :=
  match splitLine input with
  | none => .err .eof
  | some (line, rest) =>
    match headerLoop rest line (-1) with
    | .ok ((head, size), rest2) =>
      if size = -1 then .err .noContentLength else .ok ((head, size), rest2)
    | .err e => .err e
    | .panicMsg m => .panicMsg m

/-- `readChunkData` (mjpeg-proxy.go lines 149-165): `make([]byte, size)`
panics for a negative size; otherwise the read loop gathers exactly `size`
bytes, or fails with the reader's error (EOF) when the stream is shorter. -/
def readChunkData (input : List Char) (size : Int) :
    Outcome (List Char × List Char) :=
  if size < 0 then .panicMsg msliceMsg
  else if size.toNat ≤ input.length then
    .ok (input.take size.toNat, input.drop size.toNat)
  else .err .eof

/-- How a chunker run ends: with a Go error recorded in its `failure`
variable, or with a runtime panic. -/
inductive ChunkStop where
  | failure : GoErr → ChunkStop
  | panicked : String → ChunkStop
deriving DecidableEq, Repr

/-- The `ChunkLoop` of `chunker` (mjpeg-proxy.go lines 65-89), with fuel.
Returns the frames sent to `pubChan` in order, and how the loop stopped.
The frame sent for a chunk is `append(head, data...)` (line 82): the raw
boundary-and-header bytes followed by the body bytes.  After sending, a
zero `size` sets the failure "received final chunk" and breaks (lines
85-88).  The run with no stop request on `stopChan` is modelled.  Every
iteration consumes at least two characters (a boundary line and a blank
line), so fuel `input.length + 1` always suffices. -/
def chunkerRunF : Nat → List Char → List (List Char) × ChunkStop
  | 0, _ => ([], .failure .eof)
  | fuel + 1, input =>
    match readChunkHeader input with
    | .err e => ([], .failure e)
    | .panicMsg m => ([], .panicked m)
    | .ok ((head, size), rest) =>
      match readChunkData rest size with
      | .err e => ([], .failure e)
      | .panicMsg m => ([], .panicked m)
      | .ok (data, rest2) =>
        let frame := head ++ data
        if size = 0 then ([frame], .failure .finalChunk)
        else
          let r := chunkerRunF fuel rest2
          (frame :: r.1, r.2)

/-- The chunker run loop at its always-sufficient fuel. -/
def chunkerRun (input : List Char) : List (List Char) × ChunkStop :=
  chunkerRunF (input.length + 1) input

/-- A complete line: ends with the only newline it contains.  This is the
shape `ReadSlice('\n')` hands to the loop body. -/
def isLineB : List Char → Bool
  | [] => false
  | c :: cs => if cs = [] then c == '\n' else (c != '\n') && isLineB cs

/-- A non-blank header line on which the Go loop body keeps `size`
unchanged and continues: its trimmed text is non-empty and its key (the
whole text when ": " is absent) is not Content-Length. -/
def lineSkips (l : List Char) : Bool :=
  let t := trimRight l
  !t.isEmpty &&
    (match splitColonSpace t with
     | some (k, _) => !eqFold k contentLengthKey
     | none => !eqFold t contentLengthKey)

theorem splitLine_append (l : List Char) (h : isLineB l = true) (rest : List Char) :
    splitLine (l ++ rest) = some (l, rest) := by
  induction l with
  | nil => simp [isLineB] at h
  | cons c cs ih =>
    rw [isLineB] at h
    cases cs with
    | nil =>
      have hc : c = '\n' := by simpa using h
      subst hc
      simp [splitLine]
    | cons c2 cs2 =>
      simp only [if_neg (by simp : ¬(c2 :: cs2 = [])), Bool.and_eq_true, bne_iff_ne,
        ne_eq] at h
      have hsp := ih h.2
      rw [List.cons_append]
      unfold splitLine
      rw [if_neg h.1, hsp]

theorem isLineB_ne_nil {l : List Char} (h : isLineB l = true) : l ≠ [] := by
  intro hn; subst hn; simp [isLineB] at h

theorem isLineB_length_pos {l : List Char} (h : isLineB l = true) : 0 < l.length :=
  List.length_pos.mpr (isLineB_ne_nil h)

theorem headerLoopF_skipAll :
    ∀ (hdrs : List (List Char)) (fuel : Nat) (blank tail head : List Char) (size : Int),
      (hdrs.flatten ++ blank ++ tail).length < fuel →
      (∀ h ∈ hdrs, isLineB h = true ∧ lineSkips h = true) →
      isLineB blank = true → trimRight blank = [] →
      headerLoopF fuel (hdrs.flatten ++ blank ++ tail) head size =
        .ok ((head ++ hdrs.flatten ++ blank, size), tail) := by
  intro hdrs
  induction hdrs with
  | nil =>
    intro fuel blank tail head size hfuel _ hb1 hb2
    match fuel, hfuel with
    | fuel + 1, _ =>
      simp only [List.flatten_nil, List.nil_append, List.append_nil, headerLoopF,
        splitLine_append blank hb1 tail, hb2, if_pos rfl, if_true]
  | cons hd hs ih =>
    intro fuel blank tail head size hfuel hh hb1 hb2
    have hhd := hh hd (by simp)
    have hrest : ∀ h ∈ hs, isLineB h = true ∧ lineSkips h = true :=
      fun h hm => hh h (by simp [hm])
    have hjoin : (hd :: hs).flatten ++ blank ++ tail = hd ++ (hs.flatten ++ blank ++ tail) := by
      simp [List.append_assoc]
    have hskip := hhd.2
    rw [lineSkips] at hskip
    simp only [Bool.and_eq_true] at hskip
    have ht : ¬ trimRight hd = [] := by
      intro hc
      rw [hc] at hskip
      simp at hskip
    match fuel, hfuel with
    | fuel + 1, hfuel =>
      have hlen : (hs.flatten ++ blank ++ tail).length < fuel := by
        rw [hjoin] at hfuel
        have := isLineB_length_pos hhd.1
        simp only [List.length_append] at hfuel ⊢
        omega
      rw [hjoin]
      cases hsp : splitColonSpace (trimRight hd) with
      | none =>
        have heq : eqFold (trimRight hd) contentLengthKey = false := by
          rw [hsp] at hskip
          simpa using hskip.2
        simp only [headerLoopF, splitLine_append hd hhd.1, if_neg ht, hsp, heq,
          Bool.false_eq_true, if_false]
        rw [ih fuel blank tail (head ++ hd) size hlen hrest hb1 hb2]
        simp [List.append_assoc]
      | some kv =>
        have heq : eqFold kv.1 contentLengthKey = false := by
          rw [hsp] at hskip
          simpa using hskip.2
        simp only [headerLoopF, splitLine_append hd hhd.1, if_neg ht, hsp, heq,
          Bool.false_eq_true, if_false]
        rw [ih fuel blank tail (head ++ hd) size hlen hrest hb1 hb2]
        simp [List.append_assoc]

/-!
Claims about the chunk parser (`chunker` of src/mjpeg-proxy.go).
-/

/-- Concrete stream for claim C1: one chunk declaring Content-Length 5
followed by exactly its 5 body bytes. -/
def c1input : List Char := "--b\nContent-Length: 5\n\nhello".data

/-- The boundary-and-header bytes of the single chunk of `c1input`. -/
def c1head : List Char := "--b\nContent-Length: 5\n\n".data

/-- The body bytes of the single chunk of `c1input`. -/
def c1body : List Char := "hello".data

/-- C1, counterexample: on a well-formed chunk with `Content-Length: 5` and
body "hello", the run loop emits a single frame equal to the raw
boundary-and-header bytes followed by the body — not the five body bytes
alone, so the frame value is not "the body bytes, nothing more". -/
theorem c1_counterexample :
    (chunkerRun c1input).1 = [c1head ++ c1body] ∧ c1head ++ c1body ≠ c1body :=
  ⟨by decide, by decide⟩

/-- C1, amended: for every stream whose next chunk's headers parse with
Content-Length `n ≥ 0` and that still holds at least `n` body bytes, the
run loop's frame for that chunk is the chunk's boundary-and-header bytes
followed by exactly those `n` body bytes (the payload is the frame's
suffix; the header bytes are included in the frame). -/
theorem c1_amended (input head rest : List Char) (n : Int)
    (hhd : readChunkHeader input = .ok ((head, n), rest))
    (hn : 0 ≤ n) (hlen : n.toNat ≤ rest.length) :
    (chunkerRun input).1.head? = some (head ++ rest.take n.toNat) := by
  have hdata : readChunkData rest n = .ok (rest.take n.toNat, rest.drop n.toNat) := by
    rw [readChunkData, if_neg (by omega), if_pos hlen]
  rw [chunkerRun]
  by_cases h0 : n = 0
  · subst h0
    simp [chunkerRunF, hhd, hdata]
  · simp [chunkerRunF, hhd, hdata, h0]

/-- C1, witness at the concrete chunk of `c1input`. -/
theorem c1_witness :
    readChunkHeader c1input = .ok ((c1head, 5), c1body) ∧
    (chunkerRun c1input).1.head? = some (c1head ++ c1body.take (5 : Int).toNat) :=
  ⟨by decide, c1_amended c1input c1head c1body 5 (by decide) (by decide) (by decide)⟩

/-- Concrete stream for claim C2: a single chunk with `Content-Length: 0`. -/
def c2input : List Char := "--b\nContent-Length: 0\n\n".data

/-- C2, counterexample: on `Content-Length: 0` the chunker does emit a frame
for that chunk (the chunk's boundary-and-header bytes) and records the
failure "received final chunk", so the sequence neither ends frameless nor
error-free as claimed. -/
theorem c2_counterexample :
    chunkerRun c2input = ([c2input], .failure .finalChunk) ∧
    ([c2input] : List (List Char)) ≠ [] :=
  ⟨by decide, by decide⟩

/-- C2, amended: for every stream whose next chunk's headers parse with
Content-Length 0, the run loop terminates at that chunk, but it first
emits one frame for it — the chunk's boundary-and-header bytes with an
empty payload — and it stops by recording the failure value
"received final chunk" rather than terminating with no error. -/
theorem c2_amended (input head rest : List Char)
    (hhd : readChunkHeader input = .ok ((head, 0), rest)) :
    chunkerRun input = ([head], .failure .finalChunk) := by
  have hdata : readChunkData rest 0 = .ok ([], rest) := by
    rw [readChunkData]
    simp
  rw [chunkerRun]
  simp [chunkerRunF, hhd, hdata]

/-- C2, witness at the concrete chunk of `c2input`. -/
theorem c2_witness : chunkerRun c2input = ([c2input], .failure .finalChunk) :=
  c2_amended c2input c2input [] (by decide)

/-- C3: for every stream whose next chunk's header section reaches its blank
line without any Content-Length header line (every header line either lacks
the key or is not a key-value line matching it), `readChunkHeader` fails
with the "Content-Length chunk header not found" framing error and the run
loop stops with that failure, emitting no frame. -/
theorem c3_confirmed (bl blank rest : List Char) (hdrs : List (List Char))
    (hbl : isLineB bl = true)
    (hh : ∀ h ∈ hdrs, isLineB h = true ∧ lineSkips h = true)
    (hb1 : isLineB blank = true) (hb2 : trimRight blank = []) :
    readChunkHeader (bl ++ (hdrs.flatten ++ blank ++ rest)) = .err .noContentLength ∧
    chunkerRun (bl ++ (hdrs.flatten ++ blank ++ rest)) = ([], .failure .noContentLength) := by
  have hsplit : splitLine (bl ++ (hdrs.flatten ++ blank ++ rest)) =
      some (bl, hdrs.flatten ++ blank ++ rest) := splitLine_append bl hbl _
  have hloop : headerLoop (hdrs.flatten ++ blank ++ rest) bl (-1) =
      .ok ((bl ++ hdrs.flatten ++ blank, -1), rest) := by
    rw [headerLoop]
    exact headerLoopF_skipAll hdrs _ blank rest bl (-1) (Nat.lt_succ_self _) hh hb1 hb2
  have hhead : readChunkHeader (bl ++ (hdrs.flatten ++ blank ++ rest)) =
      .err .noContentLength := by
    simp only [readChunkHeader, hsplit, hloop, if_pos rfl, if_true]
  refine ⟨hhead, ?_⟩
  rw [chunkerRun]
  simp only [chunkerRunF, hhead]

/-- Boundary line of the C3 witness stream. -/
def c3bl : List Char := "--bdry\n".data

/-- Header line without a Content-Length key for the C3 witness stream. -/
def c3hdr : List Char := "Content-Type: image/jpeg\n".data

/-- Blank header-terminating line of the C3 witness stream. -/
def c3blank : List Char := "\r\n".data

/-- C3, witness on a concrete chunk whose only header is Content-Type. -/
theorem c3_witness :
    readChunkHeader (c3bl ++ ([c3hdr].flatten ++ c3blank ++ [])) = .err .noContentLength ∧
    chunkerRun (c3bl ++ ([c3hdr].flatten ++ c3blank ++ [])) = ([], .failure .noContentLength) :=
  c3_confirmed c3bl c3blank [] [c3hdr] (by decide) (by decide) (by decide) (by decide)

/-- Concrete stream for claim C9: headers declaring `Content-Length: -5`. -/
def c9input : List Char := "--b\nContent-Length: -5\n\n".data

/-- C9: a negative Content-Length value is accepted by `readChunkHeader`
without error (Atoi parses it and -5 passes the `size == -1` check), and
`readChunkData` then hits the `make([]byte, -5)` runtime panic, so the
chunker run ends in a panic instead of an error: the body-reading step is
not total over the header sections the header parser accepts. -/
theorem c9_confirmed :
    readChunkHeader c9input = .ok ((c9input, -5), []) ∧
    readChunkData [] (-5) = .panicMsg msliceMsg ∧
    chunkerRun c9input = ([], .panicked msliceMsg) :=
  ⟨by decide, by decide, by decide⟩

/-- Concrete stream for claim C10: a header line that is exactly
"Content-Length" with no ": " separator before its line terminator. -/
def c10input : List Char := "--b\nContent-Length\r\n".data

/-- C10: on a header line whose whole trimmed text is "Content-Length" with
no ": " separator, `strings.SplitN` yields a one-element slice, the
case-insensitive key match succeeds, and the access to `parts[1]` is an
out-of-range index: `readChunkHeader` panics instead of returning. -/
theorem c10_confirmed :
    readChunkHeader c10input = .panicMsg oorMsg ∧
    chunkerRun c10input = ([], .panicked oorMsg) :=
  ⟨by decide, by decide⟩

/-!
The Broker (`PubSub` of src/pubsub.go).

The broker's event loop (`loop`, pubsub.go lines 84-107) is a serialized
actor; its state is embedded as `BrokerState` and each handler as a pure
state transformer.  Subscribers are identified by a `Nat`; `closed`
records the identities whose delivery channel has been closed.  The parser
handle `pubChan` is modelled by the Boolean `running` (`pubChan ≠ nil`).
Modelled from the spec: the `Chunker` type used by `startChunker` and
`stopChunker` (its `Started`, `Connect`, `Start` and `Stop` methods) is not
part of the sources; per the spec its state is `{connection, started}`,
`started` tracks the running handle at handler boundaries, and `Connect`
either succeeds or fails — so a subscribe event carries the outcome of its
possible connection attempt as a Boolean, and `chunker.Started()` agrees
with `running` when `startChunker` is entered.
-/

/-- Broker state: the subscriber set, whether the chunker is running
(`pubChan ≠ nil`), whether the idle stop timer is armed (the grace window
after the set became empty), and which delivery channels have been
closed. -/
structure BrokerState where
  subs : List Nat
  running : Bool
  graceArmed : Bool
  closed : List Nat
deriving DecidableEq, Repr

/-- The five event kinds handled by the loop of pubsub.go lines 84-107:
a frame from the chunker, the chunker's channel closing, a subscribe
request (carrying whether the connection attempt would succeed), an
unsubscribe request, and the idle timer firing. -/
inductive Event where
  | publish
  | producerEnded
  | subscribe : Nat → Bool → Event
  | unsubscribe : Nat → Event
  | timerFire
deriving DecidableEq, Repr

/-- `doUnsubscribe` (pubsub.go lines 140-159): removing an absent
subscriber is a no-op; removing the last subscriber re-arms the idle stop
timer with the grace delay. -/
def doUnsubscribe (st : BrokerState) (s : Nat) : BrokerState :=
  if s ∈ st.subs then
    let subs2 := st.subs.erase s
    { st with subs := subs2,
              graceArmed := if subs2 = [] then true else st.graceArmed }
  else st

/-- One iteration of the loop of `stopSubscribers` (pubsub.go lines
133-138): close the subscriber's channel, then `doUnsubscribe` it. -/
def unsubStep (acc : BrokerState) (x : Nat) : BrokerState :=
  doUnsubscribe { acc with closed := x :: acc.closed } x

/-- `stopSubscribers` (pubsub.go lines 133-138): closes every current
subscriber's channel and unsubscribes each of them. -/
def stopSubscribers (st : BrokerState) : BrokerState :=
  st.subs.foldl unsubStep st

/-- `stopChunker` (pubsub.go lines 177-183): stops the chunker when a
handle is held and clears the handle. -/
def stopChunker (st : BrokerState) : BrokerState :=
  { st with running := false }

/-- `doSubscribe` (pubsub.go lines 118-131): add the subscriber; when no
chunker is running, attempt to start one (`startChunker`), and on failure
close every current subscriber's channel via `stopSubscribers`. -/
def doSubscribe (st : BrokerState) (s : Nat) (connectOk : Bool) : BrokerState :=
  let st1 := { st with subs := if s ∈ st.subs then st.subs else s :: st.subs }
  if st1.running then st1
  else if connectOk then { st1 with running := true }
  else stopSubscribers st1

/-- The event dispatch of `loop` (pubsub.go lines 84-107): a frame leaves
the state unchanged (delivery is modelled separately by `doPublish`); the
chunker's channel closing runs `stopChunker` then `stopSubscribers`; the
timer firing consumes the armed timer and stops the chunker only when the
subscriber set is empty. -/
def applyEvent (st : BrokerState) : Event → BrokerState
  | .publish => st
  | .producerEnded => stopSubscribers (stopChunker st)
  | .subscribe s connectOk => doSubscribe st s connectOk
  | .unsubscribe s => doUnsubscribe st s
  | .timerFire =>
    let st1 := { st with graceArmed := false }
    if st1.subs = [] then stopChunker st1 else st1

/-- When an event can occur: frames and channel closure only come from a
running chunker's channel, and the timer only fires while armed. -/
def Guard (st : BrokerState) : Event → Prop
  | .publish => st.running = true
  | .producerEnded => st.running = true
  | .timerFire => st.graceArmed = true
  | _ => True

/-- The broker's initial state (`NewPubSub`, pubsub.go lines 57-70): no
subscribers, no chunker handle, and the fresh timer already fired and
drained, so the timer is not armed. -/
def initState : BrokerState := ⟨[], false, false, []⟩

/-- The states the broker's serialized loop can reach from the initial
state through guarded events. -/
inductive Reachable : BrokerState → Prop where
  | init : Reachable initState
  | step : ∀ {st : BrokerState} (e : Event),
      Reachable st → Guard st e → Reachable (applyEvent st e)

theorem stopFold_spec :
    ∀ (l : List Nat) (acc : BrokerState), acc.subs = l →
      (l.foldl unsubStep acc).subs = [] ∧
      (l.foldl unsubStep acc).running = acc.running ∧
      (l ≠ [] → (l.foldl unsubStep acc).graceArmed = true) ∧
      (l = [] → l.foldl unsubStep acc = acc) ∧
      (∀ x, x ∈ l ∨ x ∈ acc.closed → x ∈ (l.foldl unsubStep acc).closed) := by
  intro l
  induction l with
  | nil =>
    intro acc h
    refine ⟨h, rfl, by simp, fun _ => rfl, ?_⟩
    intro x hx
    simpa using hx
  | cons y ys ih =>
    intro acc h
    have hstep : unsubStep acc y =
        ⟨ys, acc.running, if ys = [] then true else acc.graceArmed, y :: acc.closed⟩ := by
      rw [unsubStep, doUnsubscribe]
      simp [h, List.erase_cons_head]
    have := ih (unsubStep acc y) (by rw [hstep])
    rw [List.foldl_cons]
    refine ⟨this.1, ?_, ?_, by simp, ?_⟩
    · rw [this.2.1, hstep]
    · intro _
      by_cases hys : ys = []
      · have hr := this.2.2.2.1 hys
        rw [hr, hstep]
        simp [hys]
      · exact this.2.2.1 hys
    · intro x hx
      apply this.2.2.2.2
      rw [hstep]
      rcases hx with hx | hx
      · rcases List.mem_cons.mp hx with hx | hx
        · right; simp [hx]
        · left; exact hx
      · right; simp [hx]

theorem stopSubscribers_running (st : BrokerState) :
    (stopSubscribers st).running = st.running :=
  (stopFold_spec st.subs st rfl).2.1

theorem stopSubscribers_subs (st : BrokerState) : (stopSubscribers st).subs = [] :=
  (stopFold_spec st.subs st rfl).1

theorem stopSubscribers_closed (st : BrokerState) :
    ∀ x, x ∈ st.subs ∨ x ∈ st.closed → x ∈ (stopSubscribers st).closed :=
  (stopFold_spec st.subs st rfl).2.2.2.2

/-- Reachable broker state for the C4 counterexample: a first subscriber
arrives while no chunker runs, and the connection attempt fails. -/
def c4state : BrokerState := applyEvent initState (.subscribe 0 false)

/-- C4, counterexample: after a failed start on first subscribe, the broker
is in a reachable state whose subscriber set just became empty with the
idle timer re-armed (a grace window has begun) while the chunker handle is
not live, so "live if and only if non-empty or in the grace window" fails
in the right-to-left direction. -/
theorem c4_counterexample :
    Reachable c4state ∧
    ¬ (c4state.running = true ↔ (c4state.subs ≠ [] ∨ c4state.graceArmed = true)) :=
  ⟨Reachable.step (.subscribe 0 false) Reachable.init trivial, by decide⟩

/-- C4, amended: in every reachable state of the broker's event loop, the
chunk parser handle is live only if the subscriber set is non-empty or the
idle grace window is open (the stop timer is armed); the converse direction
of the claimed equivalence does not hold. -/
theorem c4_amended (st : BrokerState) (hr : Reachable st) :
    st.running = true → st.subs ≠ [] ∨ st.graceArmed = true := by
  induction hr with
  | init => intro h; simp [initState] at h
  | @step st e _ hg ih =>
    cases e with
    | publish => exact ih
    | producerEnded =>
      intro h
      have := (stopFold_spec (stopChunker st).subs (stopChunker st) rfl).2.1
      rw [applyEvent] at h
      rw [stopSubscribers] at h
      rw [this] at h
      simp [stopChunker] at h
    | subscribe s connectOk =>
      intro h
      rw [applyEvent, doSubscribe] at h ⊢
      have hne : (if s ∈ st.subs then st.subs else s :: st.subs) ≠ [] := by
        by_cases hm : s ∈ st.subs
        · simp only [if_pos hm]
          exact List.ne_nil_of_mem hm
        · simp [if_neg hm]
      by_cases h1 : st.running
      · simp only [if_pos h1]
        exact Or.inl hne
      · simp only [Bool.not_eq_true] at h1
        simp only [h1, Bool.false_eq_true, if_false] at h ⊢
        by_cases h2 : connectOk
        · simp only [h2, if_true] at h ⊢
          exact Or.inl hne
        · simp only [h2, Bool.false_eq_true, if_false] at h ⊢
          rw [stopSubscribers_running] at h
          simp [h1] at h
    | unsubscribe s =>
      intro h
      rw [applyEvent, doUnsubscribe] at h ⊢
      by_cases hm : s ∈ st.subs
      · simp only [if_pos hm] at h ⊢
        by_cases he : st.subs.erase s = []
        · right; simp [he]
        · left; simpa using he
      · simp only [if_neg hm] at h ⊢
        exact ih h
    | timerFire =>
      intro h
      rw [applyEvent] at h ⊢
      by_cases he : st.subs = []
      · simp only [he, if_pos rfl] at h
        simp [stopChunker] at h
      · simp only [if_neg (by simpa using he)] at h ⊢
        left
        simpa using he

/-- Reachable broker state for the C4 witness: one subscriber and a
successful start. -/
def c4wit : BrokerState := applyEvent initState (.subscribe 1 true)

/-- C4, witness at a reachable state with a live chunker handle. -/
theorem c4_amended_witness : c4wit.subs ≠ [] ∨ c4wit.graceArmed = true :=
  c4_amended c4wit (Reachable.step (.subscribe 1 true) Reachable.init trivial) rfl

/-- A subscriber's delivery channel at publish time: whether a receive is
currently pending on it (the non-blocking send succeeds exactly then,
because the channel is unbuffered), and the frames it has received. -/
structure SubChan where
  ready : Bool
  received : List (List Char)
deriving DecidableEq, Repr

/-- `doPublish` (pubsub.go lines 109-116): for each subscriber a `select`
with a `default` branch tries to send the frame on its channel; a ready
subscriber receives it, an unready one has this frame skipped. -/
def doPublish (subs : List SubChan) (data : List Char) : List SubChan :=
  subs.map fun s =>
    if s.ready then { s with received := s.received ++ [data] } else s

/-- C5: publishing never fails and handles each subscriber independently:
the subscriber list keeps its shape, and the outcome at each position
depends only on that subscriber's own readiness — a ready subscriber has
the frame appended to its received stream, an unready one is left exactly
as it was (the frame is dropped for it alone), whatever the readiness of
the others. -/
theorem c5_confirmed (subs : List SubChan) (data : List Char) (i : Nat)
    (h : i < subs.length) :
    (doPublish subs data).length = subs.length ∧
    (doPublish subs data)[i]? =
      some (if subs[i].ready then { subs[i] with received := subs[i].received ++ [data] }
            else subs[i]) := by
  constructor
  · simp [doPublish]
  · rw [doPublish, List.getElem?_map, List.getElem?_eq_getElem h]
    rfl

/-- C5, witness on two subscribers, one ready and one not. -/
theorem c5_witness :
    (doPublish [⟨true, []⟩, ⟨false, []⟩] ['j']).length = 2 ∧
    (doPublish [⟨true, []⟩, ⟨false, []⟩] ['j'])[1]? = some ⟨false, []⟩ :=
  c5_confirmed [⟨true, []⟩, ⟨false, []⟩] ['j'] 1 (by decide)

/-- C6: from any broker state with no running chunker, a subscribe event
whose start attempt fails leaves an empty subscriber set, a still-stopped
chunker handle, and every subscriber's delivery channel — the new
subscriber's included — closed. -/
theorem c6_confirmed (st : BrokerState) (s : Nat) (hrun : st.running = false) :
    (applyEvent st (.subscribe s false)).subs = [] ∧
    (applyEvent st (.subscribe s false)).running = false ∧
    ∀ x, x = s ∨ x ∈ st.subs → x ∈ (applyEvent st (.subscribe s false)).closed := by
  rw [applyEvent, doSubscribe]
  simp only [hrun, Bool.false_eq_true, if_false]
  refine ⟨stopSubscribers_subs _, ?_, ?_⟩
  · rw [stopSubscribers_running]
  · intro x hx
    apply stopSubscribers_closed
    left
    rcases hx with hx | hx
    · subst hx
      by_cases hm : x ∈ st.subs
      · simp [hm]
      · simp [hm]
    · by_cases hm : s ∈ st.subs
      · simpa [hm] using hx
      · simp [hm, hx]

/-- C6, witness at a concrete one-subscriber state. -/
theorem c6_witness :
    (applyEvent ⟨[5], false, false, []⟩ (.subscribe 7 false)).subs = [] ∧
    5 ∈ (applyEvent ⟨[5], false, false, []⟩ (.subscribe 7 false)).closed :=
  ⟨(c6_confirmed ⟨[5], false, false, []⟩ 7 rfl).1,
   (c6_confirmed ⟨[5], false, false, []⟩ 7 rfl).2.2 5 (Or.inr (by decide))⟩

/-!
The Stream Responder (`ServeHTTP` of src/pubsub.go, lines 208-306) and the
throttling interval (`parseSendInterval`, lines 199-206).

The receive loop's environment is a list of `Arrival` events: a chunk
received from the delivery channel (with the wall-clock time, in
nanoseconds, at which the iteration runs), the channel closing, or the
request context being cancelled.  `float64` values are modelled as
rationals; `time.Duration` values are nanosecond counts.
-/

/-- One iteration's event in the `select` of the receive loop: a chunk
delivered on `sub.ChunkChannel` at a given time, the channel closed
(`chunkOk = false`), or `r.Context().Done()`. -/
inductive Arrival where
  | frame : List Char → Nat → Arrival
  | closedChan : Arrival
  | canceled : Arrival
deriving DecidableEq, Repr

/-- The responder's loop-carried state: `headersSent`, the `chunkOk` flag
(false until a chunk is received, then tracking the last receive), the time
of the last part actually written, and the parts written so far. -/
structure RespState where
  headersSent : Bool
  chunkOk : Bool
  lastSendTime : Nat
  parts : List (List Char)
deriving DecidableEq, Repr

/-- How `ServeHTTP` ends after its loop: the 503 "Stream failed" error
response, the normal multipart-writer close, or still waiting for a next
event (the loop has not terminated). -/
inductive RespResult where
  | serviceUnavailable
  | streamClosed
  | pending
deriving DecidableEq, Repr

/-- The epilogue of `ServeHTTP` (pubsub.go lines 296-305): 503 exactly when
`!headersSent && !chunkOk`, otherwise `mw.Close()`. -/
def finishResp (st : RespState) : RespResult :=
  if !st.headersSent && !st.chunkOk then .serviceUnavailable else .streamClosed

/-- The `LOOP` of `ServeHTTP` (pubsub.go lines 253-294).  A closed channel
clears `chunkOk` and breaks; cancellation breaks leaving `chunkOk` as it
was; a chunk first sets `chunkOk`, then the duration check (`endTime <
now`) may break, then either the HTTP headers plus the first part are sent,
or — headers already sent — the chunk is skipped when throttling is on and
the interval has not elapsed since `lastSendTime`, or the part is written
and `lastSendTime` updated.  Write errors of the multipart writer are not
modelled (they end the handler without the 503 path).  Returns the final
state and how the handler responds. -/
def serveLoop (interval endTime : Nat) : List Arrival → RespState → RespState × RespResult
  | [], st => (st, .pending)
  | Arrival.closedChan :: _, st =>
    ({ st with chunkOk := false }, finishResp { st with chunkOk := false })
  | Arrival.canceled :: _, st => (st, finishResp st)
  | Arrival.frame d now :: rest, st =>
    let st1 := { st with chunkOk := true }
    if endTime < now then (st1, finishResp st1)
    else if st1.headersSent then
      if 0 < interval ∧ now - st1.lastSendTime < interval then
        serveLoop interval endTime rest st1
      else
        serveLoop interval endTime rest
          { st1 with lastSendTime := now, parts := st1.parts ++ [d] }
    else
      serveLoop interval endTime rest
        { st1 with headersSent := true, lastSendTime := now, parts := st1.parts ++ [d] }

/-- The responder's state at entry to the loop: Go zero values. -/
def initResp : RespState := ⟨false, false, 0, []⟩

/-- Go's conversion of a float to an integer type: truncation toward
zero (used by `time.Duration(1000.0 / f)`). -/
def goTrunc (q : ℚ) : Int :=
  if q < 0 then -Int.floor (-q) else Int.floor q

/-- `parseSendInterval` (pubsub.go lines 199-206): an unparseable or absent
`fps` yields 0 (throttling off); otherwise
`time.Duration(1000.0/f) * time.Millisecond`, i.e. `trunc(1000/f)` whole
milliseconds expressed in nanoseconds.  The `ParseFloat` result is
modelled as `none` (error) or the parsed value as a rational. -/
def parseSendInterval (fps : Option ℚ) : Int :=
  match fps with
  | none => 0
  | some f => goTrunc (1000 / f) * 1000000

theorem serveLoop_ok_no503 (i e : Nat) (as : List Arrival) :
    ∀ st : RespState, st.chunkOk = true → st.headersSent = true →
      (serveLoop i e as st).2 ≠ .serviceUnavailable := by
  induction as with
  | nil =>
    intro st h1 h2
    simp [serveLoop]
  | cons a rest ih =>
    intro st h1 h2
    cases a with
    | closedChan => simp [serveLoop, finishResp, h2]
    | canceled => simp [serveLoop, finishResp, h1, h2]
    | frame d now =>
      simp only [serveLoop]
      by_cases hn : e < now
      · simp [hn, finishResp]
      · simp only [if_neg hn, h2, if_true]
        split
        · exact ih _ rfl rfl
        · exact ih _ rfl rfl

/-- C7, counterexample: a client cancellation arriving before any chunk was
ever received terminates the loop with `headersSent` and `chunkOk` both
still false, and `ServeHTTP` responds 503 — so the 503 is not produced
exactly on channel closure, and a cancellation can produce it. -/
theorem c7_counterexample :
    serveLoop 0 1000 [Arrival.canceled] initResp = (initResp, .serviceUnavailable) :=
  rfl

/-- C7, amended: the responder answers 503 exactly when its receive loop
terminates before any chunk was ever received — that is, when the very
first loop event is the delivery channel closing or a client cancellation.
Channel closure before any frame yields the 503, but so does a
cancellation before any frame; a cancellation (or closure) after at least
one chunk was received never does. -/
theorem c7_amended (i e : Nat) (as : List Arrival) :
    (serveLoop i e as initResp).2 = .serviceUnavailable ↔
      (as.head? = some Arrival.closedChan ∨ as.head? = some Arrival.canceled) := by
  cases as with
  | nil => simp [serveLoop]
  | cons a rest =>
    cases a with
    | closedChan => simp [serveLoop, finishResp, initResp]
    | canceled => simp [serveLoop, finishResp, initResp]
    | frame d now =>
      have hno : (serveLoop i e (Arrival.frame d now :: rest) initResp).2 ≠
          .serviceUnavailable := by
        simp only [serveLoop]
        by_cases hn : e < now
        · simp [hn, finishResp]
        · simp only [if_neg hn, initResp]
          exact serveLoop_ok_no503 i e rest _ rfl rfl
      simp [hno]

/-- Modelled from the spec: the claimed minimum inter-frame interval for a
given fps — "a minimum inter-frame interval = 1000/fps milliseconds" —
expressed in nanoseconds, exactly (no truncation). -/
def claimedIntervalNs (f : ℚ) : ℚ := 1000 / f * 1000000

/-- The frames a run delivers when throttling is off: every received chunk
up to (and excluding) the first terminating event — channel closure,
cancellation, or a chunk arriving past the duration limit. -/
def allFramesUntil (endTime : Nat) : List Arrival → List (List Char)
  | Arrival.frame d now :: rest =>
    if endTime < now then [] else d :: allFramesUntil endTime rest
  | _ => []

theorem serveLoop_nothrottle (e : Nat) (as : List Arrival) :
    ∀ st : RespState, (serveLoop 0 e as st).1.parts = st.parts ++ allFramesUntil e as := by
  induction as with
  | nil =>
    intro st
    simp [serveLoop, allFramesUntil]
  | cons a rest ih =>
    intro st
    cases a with
    | closedChan => simp [serveLoop, allFramesUntil]
    | canceled => simp [serveLoop, allFramesUntil]
    | frame d now =>
      simp only [serveLoop, allFramesUntil]
      by_cases hn : e < now
      · simp [hn]
      · simp only [if_neg hn]
        by_cases hh : st.headersSent
        · rw [if_pos (show ({st with chunkOk := true} : RespState).headersSent = true from hh)]
          rw [if_neg (by simp)]
          rw [ih _]
          simp
        · rw [if_neg (show ¬ ({st with chunkOk := true} : RespState).headersSent = true by
            simpa using hh)]
          rw [ih _]
          simp

/-- C8, counterexample: with `fps=2000` the claimed minimum interval is
0.5ms, yet `time.Duration(1000.0/2000.0) = 0` disables throttling entirely:
a second frame arriving 0.1ms — before the claimed interval has elapsed —
after the first sent frame is delivered, not skipped. -/
theorem c8_counterexample :
    (serveLoop (parseSendInterval (some 2000)).toNat 1000000000
        [Arrival.frame ['a'] 0, Arrival.frame ['b'] 100000] initResp).1.parts =
      [['a'], ['b']] ∧
    ((100000 : ℚ) - 0 < claimedIntervalNs 2000) ∧
    ([['a'], ['b']] : List (List Char)) ≠ [['a']] := by
  refine ⟨?_, by norm_num [claimedIntervalNs], by decide⟩
  have h0 : (parseSendInterval (some 2000)).toNat = 0 := by
    norm_num [parseSendInterval, goTrunc]
  rw [h0]
  decide

/-- C8, amended: an absent or unparseable `fps` yields interval 0 and every
received chunk is delivered; an `fps` parsing as a positive number enforces
a minimum inter-frame interval of `trunc(1000/fps)` whole milliseconds —
not exactly `1000/fps` — which is 0 (throttling disabled) whenever fps
exceeds 1000; once the first chunk has been sent, a chunk arriving before
that interval has elapsed since the last sent one is skipped (state
unchanged but for `chunkOk`, nothing queued), and a chunk arriving at or
after it is written and resets the send clock. -/
theorem c8_amended :
    (∀ f : ℚ, 0 < f → parseSendInterval (some f) = goTrunc (1000 / f) * 1000000) ∧
    ((parseSendInterval none).toNat = 0 ∧
      ∀ (e : Nat) (as : List Arrival) (st : RespState),
        (serveLoop (parseSendInterval none).toNat e as st).1.parts =
          st.parts ++ allFramesUntil e as) ∧
    (∀ f : ℚ, 1000 < f → (parseSendInterval (some f)).toNat = 0) ∧
    (∀ (i e : Nat) (as : List Arrival) (st : RespState) (d : List Char) (now : Nat),
      st.headersSent = true → now ≤ e → 0 < i → now - st.lastSendTime < i →
      serveLoop i e (Arrival.frame d now :: as) st =
        serveLoop i e as { st with chunkOk := true }) ∧
    (∀ (i e : Nat) (as : List Arrival) (st : RespState) (d : List Char) (now : Nat),
      st.headersSent = true → now ≤ e → ¬ (0 < i ∧ now - st.lastSendTime < i) →
      serveLoop i e (Arrival.frame d now :: as) st =
        serveLoop i e as
          { st with chunkOk := true, lastSendTime := now, parts := st.parts ++ [d] }) := by
  refine ⟨?_, ⟨rfl, ?_⟩, ?_, ?_, ?_⟩
  · intro f _
    rfl
  · intro e as st
    exact serveLoop_nothrottle e as st
  · intro f hf
    have hf0 : 0 < f := by linarith
    have h1 : (0 : ℚ) ≤ 1000 / f := by positivity
    have h2 : (1000 : ℚ) / f < 1 := by
      rw [div_lt_one hf0]
      exact hf
    have hfl : Int.floor ((1000 : ℚ) / f) = 0 := by
      rw [Int.floor_eq_zero_iff]
      constructor <;> assumption
    simp [parseSendInterval, goTrunc, hfl, not_lt.mpr h1]
  · intro i e as st d now h1 h2 h3 h4
    simp only [serveLoop, if_neg (not_lt.mpr h2)]
    rw [if_pos (show ({st with chunkOk := true} : RespState).headersSent = true from h1)]
    rw [if_pos (show 0 < i ∧ now - ({st with chunkOk := true} : RespState).lastSendTime < i
      from ⟨h3, h4⟩)]
  · intro i e as st d now h1 h2 h3
    simp only [serveLoop, if_neg (not_lt.mpr h2)]
    rw [if_pos (show ({st with chunkOk := true} : RespState).headersSent = true from h1)]
    rw [if_neg (show ¬ (0 < i ∧ now - ({st with chunkOk := true} : RespState).lastSendTime < i)
      from h3)]

/-- C8, witness: `fps=4` gives a 250ms interval; from a state whose last
send was at time 0, a chunk at 0.1s is skipped and a chunk at 0.9s is
delivered; `fps=5000` disables throttling. -/
theorem c8_amended_witness :
    parseSendInterval (some 4) = goTrunc (1000 / 4) * 1000000 ∧
    (parseSendInterval (some 5000)).toNat = 0 ∧
    serveLoop 250000000 1000000000 [Arrival.frame ['x'] 100000000] ⟨true, true, 0, []⟩ =
      serveLoop 250000000 1000000000 [] ⟨true, true, 0, []⟩ ∧
    serveLoop 250000000 1000000000 [Arrival.frame ['x'] 900000000] ⟨true, true, 0, []⟩ =
      serveLoop 250000000 1000000000 [] ⟨true, true, 900000000, [['x']]⟩ :=
  ⟨c8_amended.1 4 (by norm_num),
   c8_amended.2.2.1 5000 (by norm_num),
   c8_amended.2.2.2.1 250000000 1000000000 [] ⟨true, true, 0, []⟩ ['x'] 100000000
     rfl (by norm_num) (by norm_num) (by norm_num),
   c8_amended.2.2.2.2 250000000 1000000000 [] ⟨true, true, 0, []⟩ ['x'] 900000000
     rfl (by norm_num) (by norm_num)⟩
